import Mathlib

/-!
Verification of the telegram voice-transcriber core: a shallow embedding of
the processing pipeline and its supporting state, filtering, download and
export subsystems (`telegram_voice_transcriber/`), with theorems settling the
specified behaviours.

Modelling conventions:
* timestamps are minutes since the Unix epoch in UTC (`Int`); the configured
  time zone of the exporter is modelled as a fixed offset in minutes (the
  properties at stake concern ordering/grouping, which a fixed-offset zone
  captures; `"YYYY-MM-DD"` keys sort lexicographically exactly as their day
  numbers sort numerically for four-digit years, so date keys are the local
  day number);
* filesystem reads and external collaborators (Telethon client, Whisper
  backend) are oracle functions passed in explicitly; calls to them are
  recorded as events;
* Python exceptions are `Except` values; a caught exception corresponds to
  matching on the `.error` constructor.
-/

namespace TgTranscriber

/-- Closed message-type enumeration (filters.py `MessageType`). -/
inductive MessageType where
  | text
  | voice
  | audio
  | video_note
  | other
deriving DecidableEq, Repr

/-- The string value of a message type (filters.py `MessageType`, a str Enum). -/
def MessageType.value : MessageType → String
  | .text => "text"
  | .voice => "voice"
  | .audio => "audio"
  | .video_note => "video_note"
  | .other => "other"

/-- A calendar date, result of converting a day number to year/month/day. -/
structure CivilDate where
  year : Int
  month : Int
  day : Int
deriving DecidableEq, Repr

/-- Convert a day count since 1970-01-01 to a proleptic Gregorian calendar
date (standard civil-from-days algorithm, as `datetime` exposes via
`.year`/`.month`/`.day` and `strftime`). -/
def civilFromDays (z : Int) : CivilDate :=
  let z' := z + 719468
  let era := Int.fdiv z' 146097
  let doe := z' - era * 146097
  let yoe := Int.fdiv (doe - Int.fdiv doe 1460 + Int.fdiv doe 36524 - Int.fdiv doe 146096) 365
  let y := yoe + era * 400
  let doy := doe - (365 * yoe + Int.fdiv yoe 4 - Int.fdiv yoe 100)
  let mp := Int.fdiv (5 * doy + 2) 153
  let d := doy - Int.fdiv (153 * mp + 2) 5 + 1
  let m := if mp < 10 then mp + 3 else mp - 9
  { year := if m ≤ 2 then y + 1 else y, month := m, day := d }

/-- The UTC calendar date of a timestamp given in minutes since the epoch. -/
def dateOfMinutes (t : Int) : CivilDate := civilFromDays (Int.fdiv t 1440)

/-- `datetime.year` of a timestamp in minutes since the epoch (UTC). -/
def yearOfMinutes (t : Int) : Int := (dateOfMinutes t).year

/-- Zero-pad a (nonnegative) integer to two digits (`%02d` / `%H`/`%M`). -/
def pad2 (n : Int) : String :=
  if n < 10 then "0" ++ toString n else toString n

/-- Zero-pad a (nonnegative) integer to four digits (`%Y`). -/
def pad4 (n : Int) : String :=
  if n < 10 then "000" ++ toString n
  else if n < 100 then "00" ++ toString n
  else if n < 1000 then "0" ++ toString n
  else toString n

/-! ## JSON values and the persisted state file (state.py) -/

/-- A parsed JSON value as `json.loads` produces it.  `jfloat` carries no
payload: floats only matter here through not being `int` instances. -/
inductive JVal where
  | jnull
  | jbool (b : Bool)
  | jint (n : Int)
  | jfloat
  | jstr (s : String)
  | jarr (items : List JVal)
  | jobj (fields : List (String × JVal))

/-- Look up a key in a JSON object's field list (`dict.get` with default
`none`; JSON object keys are unique). -/
def lookupField (key : String) : List (String × JVal) → Option JVal
  | [] => none
  | (k, v) :: rest => if k = key then some v else lookupField key rest

/-- `isinstance(x, int)` — in Python, `bool` is a subclass of `int`. -/
def isPyInt : JVal → Bool
  | .jint _ => true
  | .jbool _ => true
  | _ => false

/-- The integer value of a Python int (a `bool` behaves as `1`/`0`). -/
def pyIntVal : JVal → Int
  | .jint n => n
  | .jbool b => if b then 1 else 0
  | _ => 0

/-- Python's `l[-k:]` slice: the last `k` elements, except that `k = 0` gives
`l[0:]`, the whole list (`-0 == 0`). -/
def pySliceLast (k : Nat) (l : List α) : List α :=
  if k = 0 then l else l.drop (l.length - k)

/-- The observable condition of the state file as `__post_init__` sees it:
absent, unreadable (`OSError` from `read_text`), undecodable
(`json.JSONDecodeError` from `json.loads`), or parsed into a JSON value. -/
inductive FileState where
  | missing
  | osReadError
  | jsonDecodeError
  | parsed (v : JVal)

/-- Uncaught Python exceptions that `ProcessingState.__post_init__` can raise
on a parseable file of unexpected shape. -/
inductive PyError where
  | attributeError
  | typeError
deriving DecidableEq, Repr

/-- The loading loop of `ProcessingState.__post_init__`: iterate the slice,
appending every `isinstance(_, int)` element. -/
def loadLoop (items : List JVal) : List Int :=
  items.foldl (fun acc v => if isPyInt v then acc ++ [pyIntVal v] else acc) []

/-- `ProcessingState.__post_init__` (state.py lines 18-30), as the list of
ids it loads.  A missing file is skipped; `OSError`/`json.JSONDecodeError`
are caught (start fresh); but `data.get` on a non-dict raises
`AttributeError`, and slicing a non-sliceable `processed_ids` raises
`TypeError` — neither is caught. -/
def loadProcessedIds (fs : FileState) (max_history : Nat) : Except PyError (List Int) :=
  match fs with
  | .missing => .ok []
  | .osReadError => .ok []
  | .jsonDecodeError => .ok []
  | .parsed v =>
    match v with
    | .jobj fields =>
      let ids := (lookupField "processed_ids" fields).getD (.jarr [])
      match ids with
      | .jarr items => .ok (loadLoop (pySliceLast max_history items))
      | .jstr _ => .ok []
      | _ => .error .typeError
    | _ => .error .attributeError

/-! ## The idempotency state store (state.py) -/

/-- In-memory `ProcessingState` (state.py): a FIFO sequence plus a membership
index and a dirty flag, bounded by `max_history`. -/
structure ProcessingState where
  max_history : Nat := 2000
  ordered_ids : List Int := []
  id_index : Finset Int := ∅
  dirty : Bool := false
deriving DecidableEq

/-- A freshly constructed state over no prior file. -/
def initState (cap : Nat) : ProcessingState := { max_history := cap }

/-- Construction over a state file: load (possibly raising), then populate
both the ordered sequence and the membership index. -/
def ProcessingState.load (fs : FileState) (cap : Nat) : Except PyError ProcessingState :=
  (loadProcessedIds fs cap).map fun ids =>
    { max_history := cap, ordered_ids := ids, id_index := ids.toFinset }

/-- `ProcessingState.has_processed`. -/
def ProcessingState.has_processed (s : ProcessingState) (message_id : Int) : Bool :=
  message_id ∈ s.id_index

/-- The eviction loop of `ProcessingState._trim`: pop `n` ids from the front,
discarding each from the index.  (When called, `n` never exceeds the length,
so the empty case is unreachable.) -/
def trimAux : Nat → List Int → Finset Int → List Int × Finset Int
  | 0, l, idx => (l, idx)
  | _ + 1, [], idx => ([], idx)
  | n + 1, oldest :: rest, idx => trimAux n rest (idx.erase oldest)

/-- `ProcessingState.record_processed` (state.py lines 35-49), inlining
`_trim`. -/
def ProcessingState.record_processed (s : ProcessingState) (message_id : Int) :
    ProcessingState :=
  if message_id ∈ s.id_index then s
  else
    let ordered := s.ordered_ids ++ [message_id]
    let index := insert message_id s.id_index
    let excess := ordered.length - s.max_history
    let trimmed := trimAux excess ordered index
    { s with ordered_ids := trimmed.1, id_index := trimmed.2, dirty := true }

/-- The in-memory effect of `ProcessingState.flush` (the durable write is
recorded as an event by the pipeline model). -/
def ProcessingState.flushed (s : ProcessingState) : ProcessingState :=
  { s with dirty := false }

/-! ## Message envelopes and the filter engine (models.py, filters.py) -/

/-- Attributes inspected on a Telethon `file` object (download.py). -/
structure RawFile where
  ext : Option String
  mime_type : Option String
deriving DecidableEq, Repr

/-- Attributes inspected on a Telethon `document` object (download.py). -/
structure RawDocument where
  ext : Option String
deriving DecidableEq, Repr

/-- The opaque original source object (`raw_message`), reduced to the
attributes the downloader inspects. -/
structure RawMessage where
  file : Option RawFile
  document : Option RawDocument
deriving DecidableEq, Repr

/-- `MessageEnvelope` (models.py).  `sender_id` is optional in line with the
`MessageLike` protocol (`sender_id: int | None`); `date` is a timezone-aware
UTC instant, in minutes since the epoch. -/
structure MessageEnvelope where
  message_id : Int
  sender_id : Option Int
  sender_display : String
  date : Int
  message_type : MessageType
  text : Option String := none
  raw_message : Option RawMessage := none
deriving DecidableEq, Repr

/-- `FilterConfig` (filters.py).  The Python sets are modelled as lists with
membership semantics. -/
structure FilterConfig where
  allowed_sender_ids : Option (List Int)
  allowed_types : List MessageType
  year : Option Int
  include_self : Bool

/-- `within_year` (filters.py line 82). -/
def within_year (timestamp : Int) (year : Int) : Bool :=
  yearOfMinutes timestamp = year

/-- Python membership of an optional sender id in a set of ids
(`None in {…}` is `False`). -/
def pyMem (sender : Option Int) (allowed : List Int) : Bool :=
  match sender with
  | none => false
  | some s => s ∈ allowed

/-- `should_include_message` (filters.py lines 59-79). -/
def should_include_message (message : MessageEnvelope) (config : FilterConfig)
    (self_user_id : Option Int) : Bool :=
  if message.message_type ∉ config.allowed_types then false
  else if (match config.year with
           | some y => ! within_year message.date y
           | none => false) then false
  else if message.sender_id = self_user_id then config.include_self
  else
    match config.allowed_sender_ids with
    | none => true
    | some allowed => pyMem message.sender_id allowed

/-! ## The transcript exporter (models.py, export_md.py) -/

/-- `TranscriptEntry` (models.py). -/
structure TranscriptEntry where
  message_id : Int
  timestamp : Int
  sender_display : String
  message_type : MessageType
  content : String
deriving DecidableEq, Repr

/-- `MarkdownExporter` configuration (export_md.py).  `tz_offset_minutes`
models `gettz(timezone_name)` as a fixed offset. -/
structure MarkdownExporter where
  chat_title : String
  year : Int
  include_message_ids : Bool
  tz_offset_minutes : Int

/-- `entry.timestamp.astimezone(tzinfo)`: same instant, carried at the local
offset; the rebuilt entry of the grouping loop. -/
def localizeEntry (off : Int) (e : TranscriptEntry) : TranscriptEntry :=
  { e with timestamp := e.timestamp + off }

/-- The local calendar date of an (already localized) entry — the grouping
key `localized.strftime("%Y-%m-%d")`, as a day number. -/
def dateKey (e : TranscriptEntry) : Int := Int.fdiv e.timestamp 1440

/-- `"%Y-%m-%d"` of a day number. -/
def formatDateKey (k : Int) : String :=
  let d := civilFromDays k
  pad4 d.year ++ "-" ++ pad2 d.month ++ "-" ++ pad2 d.day

/-- `sorted(entries, key=lambda item: item.timestamp)` — Python's sort is
stable; `List.insertionSort` with `≤` on the key is a stable sort. -/
def sortEntries (entries : List TranscriptEntry) : List TranscriptEntry :=
  entries.insertionSort (fun a b => a.timestamp ≤ b.timestamp)

/-- One `grouped[date_key].append(entry)` step on the insertion-ordered
group list (`defaultdict(list)`): append to the existing group of the
entry's date key, else open a new group at the end. -/
def addToGroup (groups : List (Int × List TranscriptEntry)) (e : TranscriptEntry) :
    List (Int × List TranscriptEntry) :=
  match groups with
  | [] => [(dateKey e, [e])]
  | (k, es) :: rest =>
    if k = dateKey e then (k, es ++ [e]) :: rest
    else (k, es) :: addToGroup rest e

/-- `grouped[date_key]` on the finished dict (empty for an absent key). -/
def lookupGroup (k : Int) (groups : List (Int × List TranscriptEntry)) :
    List TranscriptEntry :=
  ((groups.find? (fun p => p.1 = k)).map Prod.snd).getD []

/-- `MarkdownExporter._type_suffix`. -/
def typeSuffix (message_type : MessageType) : String :=
  match message_type with
  | .text => ""
  | t => " (" ++ t.value ++ ")"

/-- One transcript line of the rendering loop (export_md.py lines 44-55):
`HH:MM – <sender>: <stripped content><type suffix><optional id suffix>`. -/
def entryLine (cfg : MarkdownExporter) (entry : TranscriptEntry) : String :=
  let localMin := Int.emod entry.timestamp 1440
  let time_str := pad2 (Int.fdiv localMin 60) ++ ":" ++ pad2 (Int.emod localMin 60)
  let id_sfx := if cfg.include_message_ids
    then " [#ID: " ++ toString entry.message_id ++ "]" else ""
  time_str ++ " – " ++ entry.sender_display ++ ": " ++ entry.content.trim
    ++ typeSuffix entry.message_type ++ id_sfx

/-- The document title line. -/
def titleLine (cfg : MarkdownExporter) : String :=
  "# Transkript – " ++ cfg.chat_title ++ " (" ++ toString cfg.year ++ ")"

/-- `MarkdownExporter.render` (export_md.py lines 21-57): stable sort by
timestamp, localize, group by local date in first-seen order, then emit the
title and, for each date key ascending, a blank line, a heading and the
group's lines; finally join, strip and terminate with a newline. -/
def MarkdownExporter.render (cfg : MarkdownExporter) (entries : List TranscriptEntry) :
    String :=
  let sorted_entries := sortEntries entries
  let grouped := sorted_entries.foldl
    (fun acc e => addToGroup acc (localizeEntry cfg.tz_offset_minutes e)) []
  let keys := (grouped.map Prod.fst).insertionSort (· ≤ ·)
  let lines := [titleLine cfg] ++ keys.flatMap
    (fun k => ["", "## " ++ formatDateKey k] ++ (lookupGroup k grouped).map (entryLine cfg))
  (String.intercalate "\n" lines).trim ++ "\n"

/-- Rendering as §4.5 of the specification words it: sort entries by
timestamp ascending (stable), convert into the local time zone, take the
distinct local calendar dates in ascending order, and emit the title then,
per date, a heading followed by the chronologically ordered lines of exactly
the entries of that date. -/
def renderSpec (cfg : MarkdownExporter) (entries : List TranscriptEntry) : String :=
  let sortedLocal := (sortEntries entries).map (localizeEntry cfg.tz_offset_minutes)
  let days := ((sortedLocal.map dateKey).dedup).insertionSort (· ≤ ·)
  let lines := [titleLine cfg] ++ days.flatMap
    (fun k => ["", "## " ++ formatDateKey k]
      ++ (sortedLocal.filter (fun e => dateKey e = k)).map (entryLine cfg))
  (String.intercalate "\n" lines).trim ++ "\n"

/-! ## The media cache/downloader (download.py) -/

/-- Normalize an extension attribute (`ext if ext.startswith(".") else f".{ext}"`). -/
def normalizeExt (ext : String) : String :=
  if ext.startsWith "." then ext else "." ++ ext

/-- The `for ext in extensions: if ext:` loop — first present, non-empty
(truthy) extension attribute. -/
def firstTruthyExt : List (Option String) → Option String
  | [] => none
  | some e :: rest => if e = "" then firstTruthyExt rest else some e
  | none :: rest => firstTruthyExt rest

/-- `_infer_extension` (download.py lines 49-72).  The chained `getattr`
calls with default `None` become `Option.bind` chains. -/
def inferExtension (message : MessageEnvelope) : String :=
  let fileExt := (message.raw_message.bind (fun r => r.file)).bind (fun f => f.ext)
  let docExt := (message.raw_message.bind (fun r => r.document)).bind (fun d => d.ext)
  match firstTruthyExt [fileExt, docExt] with
  | some e => normalizeExt e
  | none =>
    let mime := (message.raw_message.bind (fun r => r.file)).bind (fun f => f.mime_type)
    if mime = some "audio/ogg" then ".ogg"
    else if mime = some "audio/mpeg" then ".mp3"
    else if mime = some "video/mp4" then ".mp4"
    else
      match message.message_type with
      | .voice => ".ogg"
      | .audio => ".mp3"
      | .video_note => ".mp4"
      | _ => ".bin"

/-- Specification-side extension inference, steps from the MIME mapping
down: the MIME mapping, else the type default, else `.bin`. -/
def inferExtensionMime (message : MessageEnvelope) : String :=
  let mime := (message.raw_message.bind (fun r => r.file)).bind (fun f => f.mime_type)
  if mime = some "audio/ogg" then ".ogg"
  else if mime = some "audio/mpeg" then ".mp3"
  else if mime = some "video/mp4" then ".mp4"
  else
    match message.message_type with
    | .voice => ".ogg"
    | .audio => ".mp3"
    | .video_note => ".mp4"
    | _ => ".bin"

/-- Specification-side extension inference, steps after the explicit file
extension: explicit document extension, else the MIME steps. -/
def inferExtensionRest (message : MessageEnvelope) : String :=
  match (message.raw_message.bind (fun r => r.document)).bind (fun d => d.ext) with
  | some e => if e = "" then inferExtensionMime message else normalizeExt e
  | none => inferExtensionMime message

/-- Extension inference as the specification words it: explicit file
extension, else explicit document extension, else the MIME mapping, else the
type default, else `.bin` (an empty-string attribute counts as absent). -/
def inferExtensionSpec (message : MessageEnvelope) : String :=
  match (message.raw_message.bind (fun r => r.file)).bind (fun f => f.ext) with
  | some e => if e = "" then inferExtensionRest message else normalizeExt e
  | none => inferExtensionRest message

/-- Filesystem/collaborator actions `MediaDownloader.download` performs. -/
inductive DlEffect where
  | mkdir (dir : String)
  | fetch (file : String)
  | replace (src dst : String)
deriving DecidableEq, Repr

/-- The downloader's view of its surroundings: the base directory, the
filesystem existence checks it performs (before and, for the reconciliation
branch, after the fetch), and the path `client.download_media` returns. -/
structure DownloadCtx where
  base_dir : String
  existsBefore : String → Bool
  fetchResult : String
  existsAfterFinal : Bool
  existsAfterTmp : Bool

/-- The media cache directory for a message: the base directory keyed by the
UTC year and zero-padded month (download.py line 24). -/
def targetDirOf (ctx : DownloadCtx) (message : MessageEnvelope) : String :=
  let d := dateOfMinutes message.date
  ctx.base_dir ++ "/" ++ toString d.year ++ "/" ++ pad2 d.month

/-- The deterministic target path: message id plus inferred extension inside
the cache directory (download.py line 27). -/
def targetPathOf (ctx : DownloadCtx) (message : MessageEnvelope) : String :=
  targetDirOf ctx message ++ "/" ++ toString message.message_id ++ inferExtension message

/-- `MediaDownloader.download` (download.py lines 18-46), returning the
target path and the effects performed.  `_ensure_timestamp` on the
envelope's timezone-aware UTC instant is the identity. -/
def download (ctx : DownloadCtx) (message : MessageEnvelope) :
    Except String (String × List DlEffect) :=
  match message.raw_message with
  | none => .error "Cannot download media without original message object."
  | some _ =>
    let target_dir := targetDirOf ctx message
    let target_path := targetPathOf ctx message
    if ctx.existsBefore target_path then .ok (target_path, [.mkdir target_dir])
    else
      let tmp_path := target_path ++ ".tmp"
      let final_path := ctx.fetchResult
      let effs := [DlEffect.mkdir target_dir, DlEffect.fetch tmp_path]
      if final_path ≠ target_path then
        if ctx.existsAfterFinal then
          .ok (target_path, effs ++ [.replace final_path target_path])
        else
          .ok (target_path, effs ++ [.replace tmp_path target_path])
      else if ctx.existsAfterTmp then
        .ok (target_path, effs ++ [.replace tmp_path target_path])
      else
        .ok (target_path, effs)

/-! ## Dry-run aggregation (models.py, dry_run.py) -/

/-- `MessageSummary` (models.py). -/
structure MessageSummary where
  message_id : Int
  timestamp : Int
  sender_display : String
  message_type : MessageType
deriving DecidableEq, Repr

/-- Increment an insertion-ordered per-type counter (`Counter[t] += 1`). -/
def bumpCount : List (MessageType × Nat) → MessageType → List (MessageType × Nat)
  | [], t => [(t, 1)]
  | (k, n) :: rest, t =>
    if k = t then (k, n + 1) :: rest else (k, n) :: bumpCount rest t

/-- `DryRunStats` (models.py). -/
structure DryRunStats where
  chat_title : String
  year : Int
  total_messages : Nat
  type_counts : List (MessageType × Nat)
  example_messages : List MessageSummary
deriving DecidableEq, Repr

/-- `DryRunReport` (dry_run.py). -/
structure DryRunReport where
  chat_title : String
  year : Int
  sample_size : Nat := 5
  total : Nat := 0
  type_counter : List (MessageType × Nat) := []
  examples : List MessageSummary := []
deriving DecidableEq, Repr

/-- `DryRunReport.add`. -/
def DryRunReport.add (r : DryRunReport) (summary : MessageSummary) : DryRunReport :=
  { r with
    total := r.total + 1
    type_counter := bumpCount r.type_counter summary.message_type
    examples := if r.examples.length < r.sample_size
      then r.examples ++ [summary] else r.examples }

/-- `DryRunReport.finalise`. -/
def DryRunReport.finalise (r : DryRunReport) : DryRunStats :=
  { chat_title := r.chat_title, year := r.year, total_messages := r.total,
    type_counts := r.type_counter, example_messages := r.examples }

/-! ## The processing pipeline (pipeline.py) -/

/-- The transcription-failure placeholder the pipeline substitutes. -/
def failedPlaceholder : String := "[Transkription fehlgeschlagen]"

/-- The empty-transcription placeholder. -/
def emptyPlaceholder : String := "[Leere Transkription]"

/-- The behaviour of the `Downloader` and `Transcriber` collaborators over
one run: what each call returns, or the exception it raises. -/
structure CollabEnv where
  downloader : MessageEnvelope → Except String String
  transcriber : String → Except String String

/-- Calls the pipeline makes on its collaborators and the state store. -/
inductive Event where
  | download (message_id : Int)
  | transcribe (path : String)
  | write (path : String) (content : String)
  | flush
deriving DecidableEq, Repr

/-- `PipelineOptions` (pipeline.py). -/
structure PipelineOptions where
  dry_run : Bool
  output_path : String

/-- `ProcessingSummary` (pipeline.py). -/
structure ProcessingSummary where
  processed_messages : Nat
  type_counts : List (MessageType × Nat)
  output_path : Option String
deriving DecidableEq, Repr

/-- `ProcessingPipeline` (pipeline.py): options, filter configuration,
exporter, dry-run report, collaborators, state store and own-account id. -/
structure Pipeline where
  options : PipelineOptions
  filter_config : FilterConfig
  exporter : MarkdownExporter
  dry_run_report : DryRunReport
  env : CollabEnv
  state : ProcessingState
  self_user_id : Option Int := none

/-- `ProcessingPipeline._process_message` (pipeline.py lines 126-157),
together with the collaborator calls it performs.  Any exception from the
download or the transcribe step is caught and replaced by the failure
placeholder; an empty (stripped) transcription becomes the empty
placeholder; empty text or other types produce no entry. -/
def processMessage (env : CollabEnv) (message : MessageEnvelope) :
    Option TranscriptEntry × List Event :=
  let entryWith := fun content => TranscriptEntry.mk message.message_id message.date
    message.sender_display message.message_type content
  match message.message_type with
  | .text =>
    match message.text with
    | some t => if t = "" then (none, []) else (some (entryWith t), [])
    | none => (none, [])
  | .voice | .audio | .video_note =>
    match env.downloader message with
    | .error _ => (some (entryWith failedPlaceholder), [.download message.message_id])
    | .ok path =>
      match env.transcriber path with
      | .error _ => (some (entryWith failedPlaceholder),
          [.download message.message_id, .transcribe path])
      | .ok raw =>
        let transcription := raw.trim
        let content := if transcription = "" then emptyPlaceholder else transcription
        (some (entryWith content), [.download message.message_id, .transcribe path])
  | .other => (none, [])

/-- The message loop of `ProcessingPipeline._run_full` (pipeline.py lines
90-110): skip processed or filtered-out messages; otherwise process, and on
a produced entry append it, record the id and bump the type counter. -/
def runFullAux (env : CollabEnv) (config : FilterConfig) (self_user_id : Option Int) :
    List MessageEnvelope → List TranscriptEntry → List (MessageType × Nat) →
    ProcessingState → List Event →
    List TranscriptEntry × List (MessageType × Nat) × ProcessingState × List Event
  | [], entries, counts, st, evs => (entries, counts, st, evs)
  | m :: rest, entries, counts, st, evs =>
    if st.has_processed m.message_id then
      runFullAux env config self_user_id rest entries counts st evs
    else if ! should_include_message m config self_user_id then
      runFullAux env config self_user_id rest entries counts st evs
    else
      match processMessage env m with
      | (none, evs2) => runFullAux env config self_user_id rest entries counts st (evs ++ evs2)
      | (some entry, evs2) =>
        runFullAux env config self_user_id rest (entries ++ [entry])
          (bumpCount counts entry.message_type)
          (st.record_processed m.message_id) (evs ++ evs2)

/-- `ProcessingPipeline._run_full` (pipeline.py lines 86-124): run the loop,
render and write if any entries were produced, flush the state store, and
return the summary. -/
def runFull (p : Pipeline) (messages : List MessageEnvelope) :
    ProcessingSummary × ProcessingState × List Event :=
  let r := runFullAux p.env p.filter_config p.self_user_id messages [] [] p.state []
  let entries := r.1
  let evs2 := if entries.isEmpty then r.2.2.2
    else r.2.2.2 ++ [.write p.options.output_path (p.exporter.render entries)]
  let output_path := if entries.isEmpty then none else some p.options.output_path
  (⟨entries.length, r.2.1, output_path⟩, r.2.2.1.flushed, evs2 ++ [.flush])

/-- The message loop of `ProcessingPipeline._run_dry` (pipeline.py lines
63-84): skip processed or filtered-out messages, hand a summary of the rest
to the aggregator.  The state store is only read. -/
def runDryAux (config : FilterConfig) (self_user_id : Option Int)
    (st : ProcessingState) :
    List MessageEnvelope → DryRunReport → DryRunReport
  | [], report => report
  | m :: rest, report =>
    if st.has_processed m.message_id then runDryAux config self_user_id st rest report
    else if ! should_include_message m config self_user_id then
      runDryAux config self_user_id st rest report
    else
      runDryAux config self_user_id st rest
        (report.add ⟨m.message_id, m.date, m.sender_display, m.message_type⟩)

/-- The result of a pipeline run: dry-run statistics or a full-run summary. -/
inductive RunResult where
  | dry (stats : DryRunStats)
  | full (summary : ProcessingSummary)
deriving DecidableEq, Repr

/-- `ProcessingPipeline.run` (pipeline.py lines 58-61), returning the result
together with the final state store and the collaborator/store calls made. -/
def Pipeline.run (p : Pipeline) (messages : List MessageEnvelope) :
    RunResult × ProcessingState × List Event :=
  if p.options.dry_run then
    (.dry (runDryAux p.filter_config p.self_user_id p.state messages
        p.dry_run_report).finalise,
      p.state, [])
  else
    let r := runFull p messages
    (.full r.1, r.2.1, r.2.2)

/-! ## Theorems: the filter engine (C4, C9) -/

/-- Claim C4: `should_include_message` rejects when the type is not allowed;
rejects when a configured year differs from the message's year; for a
self-authored message (sender id equal to `self_user_id`) returns exactly
`include_self`, bypassing the allow-list; otherwise accepts when no sender
allow-list is configured, else accepts iff the sender id is a member.  As a
Lean function it is pure, deterministic and total. -/
theorem claim_C4_filter_short_circuit (message : MessageEnvelope)
    (config : FilterConfig) (self_user_id : Option Int) :
    should_include_message message config self_user_id = true ↔
      message.message_type ∈ config.allowed_types ∧
      (∀ y, config.year = some y → within_year message.date y = true) ∧
      (if message.sender_id = self_user_id then config.include_self = true
       else config.allowed_sender_ids = none ∨
         ∃ allowed, config.allowed_sender_ids = some allowed ∧
           pyMem message.sender_id allowed = true) := by
  unfold should_include_message
  by_cases h1 : message.message_type ∈ config.allowed_types
  · cases hy : config.year with
    | none =>
      simp only [h1, not_true_eq_false, if_false, Bool.false_eq_true, ite_false,
        true_and, Option.some.injEq, reduceCtorEq, false_implies, implies_true]
      by_cases hself : message.sender_id = self_user_id
      · simp [hself]
      · simp only [hself, if_false]
        cases ha : config.allowed_sender_ids with
        | none => simp
        | some allowed => simp
    | some y =>
      by_cases hw : within_year message.date y = true
      · simp only [h1, not_true_eq_false, if_false, hw, Bool.not_true,
          Bool.false_eq_true, ite_false, true_and, Option.some.injEq]
        by_cases hself : message.sender_id = self_user_id
        · simp [hself, hw]
        · simp only [hself, if_false]
          cases ha : config.allowed_sender_ids with
          | none => simp [hw]
          | some allowed => simp [hw]
      · simp only [Bool.not_eq_true] at hw
        simp [h1, hw]
  · simp [h1]

/-- Claim C4 witness: a voice message from sender 5 with allow-list `[5]`, no
year restriction and a different own-account id is included. -/
theorem claim_C4_witness :
    should_include_message
      { message_id := 1, sender_id := some 5, sender_display := "A", date := 0,
        message_type := .voice }
      { allowed_sender_ids := some [5], allowed_types := [.voice],
        year := none, include_self := false }
      (some 99) = true := by
  refine (claim_C4_filter_short_circuit _ _ _).mpr ⟨by decide, ?_, ?_⟩
  · intro y h
    simp at h
  · simp
    decide

/-- Claim C9: when both the sender id and the own-account id are `None`, the
equality check of the self branch holds, so the result is exactly
`include_self` (given the type and year checks pass); the sender allow-list
is never consulted. -/
theorem claim_C9_none_sender_is_self (message : MessageEnvelope)
    (config : FilterConfig)
    (hsender : message.sender_id = none)
    (htype : message.message_type ∈ config.allowed_types)
    (hyear : ∀ y, config.year = some y → within_year message.date y = true) :
    should_include_message message config none = config.include_self := by
  unfold should_include_message
  cases hy : config.year with
  | none => simp [htype, hsender]
  | some y => simp [htype, hsender, hyear y hy]

/-- Claim C9 witness: a sender-less voice message against a config with a
non-trivial allow-list and `include_self = true` is included (the allow-list
`[7]`, which does not contain the sender, is bypassed). -/
theorem claim_C9_witness :
    should_include_message
      { message_id := 1, sender_id := none, sender_display := "A", date := 0,
        message_type := .voice }
      { allowed_sender_ids := some [7], allowed_types := [.voice],
        year := none, include_self := true }
      none = true := by
  have h := claim_C9_none_sender_is_self
    { message_id := 1, sender_id := none, sender_display := "A", date := 0,
      message_type := .voice }
    { allowed_sender_ids := some [7], allowed_types := [.voice],
      year := none, include_self := true }
    (by decide) (by decide) (fun y h => by cases h)
  exact h

/-! ## Theorems: state-file loading (C3, C10) -/

/-- The loading loop keeps exactly the `isinstance(_, int)` elements, in
order. -/
theorem loadLoop_eq_filter (items : List JVal) :
    loadLoop items = (items.filter (fun v => isPyInt v)).map pyIntVal := by
  have key : ∀ (l : List JVal) (acc : List Int),
      l.foldl (fun acc v => if isPyInt v then acc ++ [pyIntVal v] else acc) acc =
        acc ++ (l.filter (fun v => isPyInt v)).map pyIntVal := by
    intro l
    induction l with
    | nil => intro acc; simp
    | cons v rest ih =>
      intro acc
      by_cases hv : isPyInt v
      · simp [hv, ih]
      · simp [hv, ih]
  simpa using key items []

/-- Claim C10: loading from a parseable object whose `processed_ids` is a
list keeps exactly the integer elements of the sliced list (Python `bool`s
being `int` instances with values 1/0), dropping all others while preserving
their relative order. -/
theorem claim_C10_non_int_elements_dropped (fields : List (String × JVal))
    (items : List JVal) (cap : Nat)
    (h : lookupField "processed_ids" fields = some (.jarr items)) :
    loadProcessedIds (.parsed (.jobj fields)) cap =
      .ok (((pySliceLast cap items).filter (fun v => isPyInt v)).map pyIntVal) := by
  unfold loadProcessedIds
  simp [h, loadLoop_eq_filter]

/-- Claim C10 witness: a list mixing ints, a string, a null and a float loads
exactly its ints, in order. -/
theorem claim_C10_witness :
    loadProcessedIds
      (.parsed (.jobj [("processed_ids",
        .jarr [.jint 4, .jstr "x", .jnull, .jint 2, .jfloat, .jint 9])])) 2000 =
      .ok [4, 2, 9] := by
  have h := claim_C10_non_int_elements_dropped
    [("processed_ids", .jarr [.jint 4, .jstr "x", .jnull, .jint 2, .jfloat, .jint 9])]
    [.jint 4, .jstr "x", .jnull, .jint 2, .jfloat, .jint 9] 2000 rfl
  rw [h]
  rfl

/-- Claim C3 counterexample: a state file holding valid JSON whose top level
is an array (not an object) makes construction raise `AttributeError`
(`data.get` on a list), contradicting "construction never raises for every
target-file content". -/
theorem claim_C3_counterexample :
    loadProcessedIds (.parsed (.jarr [.jint 1, .jint 2, .jint 3])) 2000 =
      .error .attributeError := rfl

/-- Claim C3 as amended: a missing file, an unreadable file (`OSError`) or
undecodable content (`json.JSONDecodeError`) yields the empty state without
raising; and for decodable object content whose `processed_ids` is a list,
with a positive cap, exactly the last `cap` entries are retained (integer
elements only, oldest-first order preserved).  Decodable content of any
other top-level shape raises. -/
theorem claim_C3_amended (cap : Nat) :
    (ProcessingState.load .missing cap = .ok (initState cap) ∧
     ProcessingState.load .osReadError cap = .ok (initState cap) ∧
     ProcessingState.load .jsonDecodeError cap = .ok (initState cap)) ∧
    (∀ fields items, 0 < cap →
      lookupField "processed_ids" fields = some (.jarr items) →
      loadProcessedIds (.parsed (.jobj fields)) cap =
        .ok (((items.drop (items.length - cap)).filter (fun v => isPyInt v)).map
          pyIntVal)) ∧
    (∀ fields, lookupField "processed_ids" fields = none →
      loadProcessedIds (.parsed (.jobj fields)) cap = .ok []) := by
  refine ⟨⟨?_, ?_, ?_⟩, ?_, ?_⟩
  · simp [ProcessingState.load, loadProcessedIds, initState, Except.map]
  · simp [ProcessingState.load, loadProcessedIds, initState, Except.map]
  · simp [ProcessingState.load, loadProcessedIds, initState, Except.map]
  · intro fields items hcap h
    rw [claim_C10_non_int_elements_dropped fields items cap h]
    have : pySliceLast cap items = items.drop (items.length - cap) := by
      unfold pySliceLast
      simp [Nat.pos_iff_ne_zero.mp hcap]
    rw [this]
  · intro fields h
    unfold loadProcessedIds
    simp [h, loadLoop, pySliceLast]

/-- Claim C3 witness: loading an object with six persisted ids under cap 4
retains the last four, in order, and missing-file construction yields the
empty state. -/
theorem claim_C3_witness :
    ProcessingState.load .missing 4 = .ok (initState 4) ∧
    loadProcessedIds
      (.parsed (.jobj [("processed_ids",
        .jarr [.jint 1, .jint 2, .jint 3, .jint 4, .jint 5, .jint 6])])) 4 =
      .ok [3, 4, 5, 6] := by
  have h := claim_C3_amended 4
  refine ⟨h.1.1, ?_⟩
  have h2 := h.2.1 [("processed_ids",
      .jarr [.jint 1, .jint 2, .jint 3, .jint 4, .jint 5, .jint 6])]
    [.jint 1, .jint 2, .jint 3, .jint 4, .jint 5, .jint 6] (by decide) rfl
  rw [h2]
  rfl

/-! ## Theorems: the downloader (C8) -/

/-- The two extension-inference definitions agree. -/
theorem inferExtension_eq_spec (message : MessageEnvelope) :
    inferExtension message = inferExtensionSpec message := by
  unfold inferExtension inferExtensionSpec inferExtensionRest
  cases hf : (message.raw_message.bind (fun r => r.file)).bind (fun f => f.ext) with
  | none =>
    simp only [firstTruthyExt]
    cases hd : (message.raw_message.bind (fun r => r.document)).bind (fun d => d.ext) with
    | none => simp [firstTruthyExt, inferExtensionMime]
    | some e =>
      by_cases he : e = "" <;> simp [firstTruthyExt, he, inferExtensionMime]
  | some e =>
    by_cases he : e = ""
    · simp only [firstTruthyExt, he, if_pos rfl, ite_true]
      cases hd : (message.raw_message.bind (fun r => r.document)).bind (fun d => d.ext) with
      | none => simp [firstTruthyExt, inferExtensionMime]
      | some e2 =>
        by_cases he2 : e2 = "" <;> simp [firstTruthyExt, he2, inferExtensionMime]
    · simp [firstTruthyExt, he]

/-- Claim C8: `download` raises an input error when the envelope carries no
original source object; extension inference follows the documented priority
order; and when the target path already exists, `download` returns it with
only the directory-creation effect — in particular no fetch call. -/
theorem claim_C8_download_contract :
    (∀ ctx message, message.raw_message = none →
      download ctx message =
        .error "Cannot download media without original message object.") ∧
    (∀ message, inferExtension message = inferExtensionSpec message) ∧
    (∀ ctx message raw, message.raw_message = some raw →
      ctx.existsBefore (targetPathOf ctx message) = true →
      download ctx message =
        .ok (targetPathOf ctx message, [.mkdir (targetDirOf ctx message)]) ∧
      ∀ f, DlEffect.fetch f ∉ [DlEffect.mkdir (targetDirOf ctx message)]) := by
  refine ⟨?_, fun m => inferExtension_eq_spec m, ?_⟩
  · intro ctx message h
    unfold download
    rw [h]
  · intro ctx message raw h hex
    unfold download
    rw [h]
    simp [hex]

/-- Claim C8 witness: for a concrete voice message whose target path is
reported as already cached, `download` returns the deterministic path
without a fetch; the extension falls back to the voice default `.ogg`
because the source object exposes no extension and no MIME type. -/
theorem claim_C8_witness :
    download
      { base_dir := "cache", existsBefore := fun _ => true, fetchResult := "r",
        existsAfterFinal := false, existsAfterTmp := false }
      { message_id := 7, sender_id := some 5, sender_display := "A",
        date := 540, message_type := .voice, text := none,
        raw_message := some { file := none, document := none } } =
      .ok ("cache/1970/01/7.ogg", [.mkdir "cache/1970/01"]) := by
  have h := (claim_C8_download_contract.2.2
    { base_dir := "cache", existsBefore := fun _ => true, fetchResult := "r",
      existsAfterFinal := false, existsAfterTmp := false }
    { message_id := 7, sender_id := some 5, sender_display := "A",
      date := 540, message_type := .voice, text := none,
      raw_message := some { file := none, document := none } }
    { file := none, document := none } rfl rfl).1
  rw [h]
  rfl

/-! ## Theorems: the state store invariants (C5) -/

/-- The index/sequence synchronisation invariant of the state store: same
members, no duplicates in the sequence, length within the cap. -/
def StateSync (s : ProcessingState) : Prop :=
  (∀ x, x ∈ s.id_index ↔ x ∈ s.ordered_ids) ∧
  s.ordered_ids.Nodup ∧ s.ordered_ids.length ≤ s.max_history

/-- The eviction loop pops exactly the first `n` ids. -/
theorem trimAux_fst (n : Nat) : ∀ (l : List Int) (idx : Finset Int),
    (trimAux n l idx).1 = l.drop n := by
  induction n with
  | zero => intro l idx; simp [trimAux]
  | succ n ih =>
    intro l idx
    cases l with
    | nil => simp [trimAux]
    | cons a rest => simpa [trimAux] using ih rest (idx.erase a)

/-- When the index mirrors a duplicate-free sequence, eviction keeps them in
sync: afterwards the index holds exactly the undropped ids. -/
theorem trimAux_mem (n : Nat) : ∀ (l : List Int) (idx : Finset Int),
    l.Nodup → (∀ x, x ∈ idx ↔ x ∈ l) →
    ∀ x, x ∈ (trimAux n l idx).2 ↔ x ∈ l.drop n := by
  induction n with
  | zero => intro l idx _ hidx x; simpa [trimAux] using hidx x
  | succ n ih =>
    intro l idx hnd hidx x
    cases l with
    | nil => simpa [trimAux] using hidx x
    | cons a rest =>
      have hna : a ∉ rest := (List.nodup_cons.mp hnd).1
      have herase : ∀ y, y ∈ idx.erase a ↔ y ∈ rest := by
        intro y
        rw [Finset.mem_erase, hidx y]
        constructor
        · rintro ⟨hya, hy⟩
          rcases List.mem_cons.mp hy with h | h
          · exact absurd h hya
          · exact h
        · intro hy
          exact ⟨fun hya => hna (hya ▸ hy), List.mem_cons_of_mem a hy⟩
      simpa [trimAux] using ih rest (idx.erase a) (List.nodup_cons.mp hnd).2 herase x

/-- Recording an already-present id is a no-op. -/
theorem record_processed_noop (s : ProcessingState) (message_id : Int)
    (h : message_id ∈ s.id_index) : s.record_processed message_id = s := by
  unfold ProcessingState.record_processed
  simp [h]

/-- `record_processed` never changes the cap. -/
theorem record_processed_cap (s : ProcessingState) (message_id : Int) :
    (s.record_processed message_id).max_history = s.max_history := by
  unfold ProcessingState.record_processed
  by_cases h : message_id ∈ s.id_index <;> simp [h]

/-- The new sequence after recording a fresh id: append, then drop the
excess from the front. -/
theorem record_processed_ordered (s : ProcessingState) (message_id : Int)
    (h : message_id ∉ s.id_index) :
    (s.record_processed message_id).ordered_ids =
      (s.ordered_ids ++ [message_id]).drop
        ((s.ordered_ids.length + 1) - s.max_history) := by
  unfold ProcessingState.record_processed
  simp [h, trimAux_fst]

/-- `record_processed` preserves the synchronisation invariant. -/
theorem record_processed_sync (s : ProcessingState) (message_id : Int)
    (h : StateSync s) : StateSync (s.record_processed message_id) := by
  by_cases hmem : message_id ∈ s.id_index
  · rwa [record_processed_noop s message_id hmem]
  · obtain ⟨hidx, hnd, hlen⟩ := h
    have hnotl : message_id ∉ s.ordered_ids := fun hx => hmem ((hidx _).mpr hx)
    have hndl : (s.ordered_ids ++ [message_id]).Nodup := by
      simp [List.nodup_append, hnd, hnotl]
    have hmeml : ∀ x, x ∈ insert message_id s.id_index ↔
        x ∈ s.ordered_ids ++ [message_id] := by
      intro x
      simp [Finset.mem_insert, hidx x, List.mem_append, or_comm]
    unfold ProcessingState.record_processed
    simp only [hmem, if_false]
    refine ⟨?_, ?_, ?_⟩
    · intro x
      rw [trimAux_mem _ _ _ hndl hmeml x, trimAux_fst]
    · rw [trimAux_fst]
      exact hndl.sublist (List.drop_sublist _ _)
    · rw [trimAux_fst]
      simp only [List.length_drop, List.length_append, List.length_singleton]
      omega

/-- The fold of `record_processed` over any id list preserves the invariant
and the cap. -/
theorem foldl_record_sync (ids : List Int) : ∀ (s : ProcessingState),
    StateSync s →
    StateSync (ids.foldl ProcessingState.record_processed s) ∧
    (ids.foldl ProcessingState.record_processed s).max_history = s.max_history := by
  induction ids with
  | nil => intro s h; exact ⟨h, rfl⟩
  | cons a ids ih =>
    intro s h
    have step := ih (s.record_processed a) (record_processed_sync s a h)
    refine ⟨step.1, ?_⟩
    rw [List.foldl_cons, step.2, record_processed_cap]

/-- Recording a duplicate-free batch of fresh ids leaves exactly the batch's
suffix within the cap appended to what survives of the prior sequence. -/
theorem foldl_record_ordered (ids : List Int) : ∀ (s : ProcessingState),
    StateSync s → ids.Nodup → (∀ x ∈ ids, x ∉ s.id_index) →
    (ids.foldl ProcessingState.record_processed s).ordered_ids =
      (s.ordered_ids ++ ids).drop
        ((s.ordered_ids.length + ids.length) - s.max_history) := by
  induction ids with
  | nil =>
    intro s hs _ _
    have : s.ordered_ids.length - s.max_history = 0 := by
      have := hs.2.2
      omega
    simp [this]
  | cons a ids ih =>
    intro s hs hnd hfresh
    have hna : a ∉ s.id_index := hfresh a (List.mem_cons_self a ids)
    have hs' := record_processed_sync s a hs
    have hord : (s.record_processed a).ordered_ids =
        (s.ordered_ids ++ [a]).drop ((s.ordered_ids.length + 1) - s.max_history) :=
      record_processed_ordered s a hna
    have hcap : (s.record_processed a).max_history = s.max_history :=
      record_processed_cap s a
    have hfresh' : ∀ x ∈ ids, x ∉ (s.record_processed a).id_index := by
      intro x hx hxin
      have hxord := (hs'.1 x).mp hxin
      rw [hord] at hxord
      have hxapp : x ∈ s.ordered_ids ++ [a] :=
        (List.drop_sublist _ _).mem hxord
      rcases List.mem_append.mp hxapp with h | h
      · exact hfresh x (List.mem_cons_of_mem a hx) ((hs.1 x).mpr h)
      · have : x = a := by simpa using h
        exact (List.nodup_cons.mp hnd).1 (this ▸ hx)
    have := ih (s.record_processed a) hs' (List.nodup_cons.mp hnd).2 hfresh'
    rw [List.foldl_cons, this, hord, hcap]
    set L := s.ordered_ids.length with hL
    have hL1 : ((s.ordered_ids ++ [a]).drop ((L + 1) - s.max_history)).length =
        (L + 1) - ((L + 1) - s.max_history) := by
      simp [List.length_drop]
    rw [hL1]
    have he : (L + 1) - s.max_history ≤ (s.ordered_ids ++ [a]).length := by
      simp only [List.length_append, List.length_singleton]
      omega
    rw [← List.drop_append_of_le_length he, List.drop_drop, List.append_assoc,
      List.singleton_append]
    congr 1
    simp only [List.length_cons, List.length_append, List.length_singleton]
    omega

/-- `initState` satisfies the synchronisation invariant. -/
theorem initState_sync (cap : Nat) : StateSync (initState cap) := by
  refine ⟨?_, ?_, ?_⟩ <;> simp [initState]

/-- Claim C5: recording a present id is a no-op; after any sequence of
`record_processed` calls from a fresh store the index and the ordered
sequence hold the same ids and the sequence stays within the cap; and after
recording a duplicate-free sequence of ids, `has_processed` is false exactly
on the ids older than the last `cap` and true on the most recent `cap`. -/
theorem claim_C5_retention_and_sync (cap : Nat) :
    (∀ (t : ProcessingState) (id : Int), id ∈ t.id_index →
      t.record_processed id = t) ∧
    (∀ ids : List Int,
      (∀ x, x ∈ (ids.foldl ProcessingState.record_processed (initState cap)).id_index ↔
        x ∈ (ids.foldl ProcessingState.record_processed (initState cap)).ordered_ids) ∧
      (ids.foldl ProcessingState.record_processed (initState cap)).ordered_ids.length ≤ cap) ∧
    (∀ ids : List Int, ids.Nodup →
      (∀ x ∈ ids.take (ids.length - cap),
        (ids.foldl ProcessingState.record_processed (initState cap)).has_processed x = false) ∧
      (∀ x ∈ ids.drop (ids.length - cap),
        (ids.foldl ProcessingState.record_processed (initState cap)).has_processed x = true)) := by
  refine ⟨record_processed_noop, ?_, ?_⟩
  · intro ids
    have h := foldl_record_sync ids (initState cap) (initState_sync cap)
    refine ⟨h.1.1, ?_⟩
    have := h.1.2.2
    rw [h.2] at this
    simpa [initState] using this
  · intro ids hnd
    have hsync := (foldl_record_sync ids (initState cap) (initState_sync cap)).1
    have hord := foldl_record_ordered ids (initState cap) (initState_sync cap) hnd
      (by intro x _ hx; simp [initState] at hx)
    have hord2 : (ids.foldl ProcessingState.record_processed (initState cap)).ordered_ids
        = ids.drop (ids.length - cap) := by
      rw [hord]
      simp [initState]
    constructor
    · intro x hx
      have hdisj := List.disjoint_take_drop hnd
        (Nat.le_refl (ids.length - cap))
      have hnotdrop : x ∉ ids.drop (ids.length - cap) := fun hc => hdisj hx hc
      simp only [ProcessingState.has_processed, decide_eq_false_iff_not]
      rw [hsync.1 x, hord2]
      exact hnotdrop
    · intro x hx
      simp only [ProcessingState.has_processed, decide_eq_true_eq]
      rw [hsync.1 x, hord2]
      exact hx

/-- Claim C5 witness: with cap 2 and fresh ids 10, 20, 30 recorded in order,
re-recording 10 early is a no-op, the final sequence fits the cap, 10 has
been evicted and 30 is retained. -/
theorem claim_C5_witness :
    ((initState 2).record_processed 10).record_processed 10 =
      (initState 2).record_processed 10 ∧
    ([10, 20, 30].foldl ProcessingState.record_processed (initState 2)).ordered_ids.length ≤ 2 ∧
    ([10, 20, 30].foldl ProcessingState.record_processed (initState 2)).has_processed 10 = false ∧
    ([10, 20, 30].foldl ProcessingState.record_processed (initState 2)).has_processed 30 = true := by
  refine ⟨(claim_C5_retention_and_sync 2).1 _ 10 (by decide),
    ((claim_C5_retention_and_sync 2).2.1 [10, 20, 30]).2,
    ((claim_C5_retention_and_sync 2).2.2 [10, 20, 30] (by decide)).1 10 (by decide),
    ((claim_C5_retention_and_sync 2).2.2 [10, 20, 30] (by decide)).2 30 (by decide)⟩

/-! ## Theorems: the pipeline (C1, C2, C6) -/

/-- A qualifying voice message used as a concrete fixture. -/
def sampleVoiceMessage : MessageEnvelope :=
  { message_id := 101, sender_id := some 123, sender_display := "Alice",
    date := 540, message_type := .voice }

/-- A filter configuration admitting the fixture message. -/
def sampleConfig : FilterConfig :=
  { allowed_sender_ids := some [123], allowed_types := [.voice, .text],
    year := none, include_self := false }

/-- A concrete exporter configuration. -/
def sampleExporter : MarkdownExporter :=
  { chat_title := "Alice Example", year := 2025, include_message_ids := true,
    tz_offset_minutes := 60 }

/-- A fresh dry-run report fixture. -/
def sampleReport : DryRunReport := { chat_title := "Alice Example", year := 2025 }

/-- Collaborators whose download step always raises. -/
def failEnv : CollabEnv :=
  { downloader := fun _ => .error "boom", transcriber := fun _ => .ok "unused" }

/-- A dry-run pipeline over the fixtures. -/
def dryPipeline : Pipeline :=
  { options := { dry_run := true, output_path := "out.md" },
    filter_config := sampleConfig, exporter := sampleExporter,
    dry_run_report := sampleReport,
    env := { downloader := fun _ => .ok "audio.ogg", transcriber := fun _ => .ok "Hallo" },
    state := initState 2000 }

/-- A full-mode pipeline over the fixtures whose download step always
raises. -/
def fullFailPipeline : Pipeline :=
  { options := { dry_run := false, output_path := "out.md" },
    filter_config := sampleConfig, exporter := sampleExporter,
    dry_run_report := sampleReport, env := failEnv, state := initState 2000 }

/-- Processing one message never emits a flush call. -/
theorem processMessage_no_flush (env : CollabEnv) (m : MessageEnvelope) :
    Event.flush ∉ (processMessage env m).2 := by
  unfold processMessage
  cases hm : m.message_type
  case text =>
    cases m.text with
    | none => simp
    | some t => by_cases ht : t = "" <;> simp [ht]
  case other => simp
  all_goals
    cases hd : env.downloader m with
    | error e => simp [hd]
    | ok path =>
      cases ht : env.transcriber path with
      | error e => simp [hd, ht]
      | ok s => simp [hd, ht]

/-- The message loop emits no flush calls beyond those already accumulated. -/
theorem runFullAux_flush_count (env : CollabEnv) (config : FilterConfig)
    (self_user_id : Option Int) :
    ∀ (messages : List MessageEnvelope) (entries : List TranscriptEntry)
      (counts : List (MessageType × Nat)) (st : ProcessingState) (evs : List Event),
    ((runFullAux env config self_user_id messages entries counts st evs).2.2.2).count
        Event.flush = evs.count Event.flush := by
  intro messages
  induction messages with
  | nil => intro entries counts st evs; simp [runFullAux]
  | cons m rest ih =>
    intro entries counts st evs
    simp only [runFullAux]
    by_cases h1 : st.has_processed m.message_id
    · simp [h1, ih]
    · by_cases h2 : should_include_message m config self_user_id
      · have hpm : (processMessage env m) =
            ((processMessage env m).1, (processMessage env m).2) := rfl
        rw [hpm]
        have hnf : ((processMessage env m).2).count Event.flush = 0 :=
          List.count_eq_zero.mpr (processMessage_no_flush env m)
        cases hopt : (processMessage env m).1 with
        | none => simp [h1, h2, ih, List.count_append, hnf]
        | some entry => simp [h1, h2, ih, List.count_append, hnf]
      · simp [h1, h2, ih]

/-- Claim C2 as amended: in full mode the pipeline calls the state store's
flush exactly once, at the end of the run, regardless of whether entries
were produced; in dry-run mode it never calls flush. -/
theorem claim_C2_amended (p : Pipeline) (messages : List MessageEnvelope) :
    (p.options.dry_run = true → ((p.run messages).2.2).count Event.flush = 0) ∧
    (p.options.dry_run = false → ((p.run messages).2.2).count Event.flush = 1) := by
  constructor
  · intro h
    simp [Pipeline.run, h]
  · intro h
    simp only [Pipeline.run, h, Bool.false_eq_true, if_false, runFull]
    by_cases hent : (runFullAux p.env p.filter_config p.self_user_id
        messages [] [] p.state []).1.isEmpty <;>
      simp [hent, List.count_append, runFullAux_flush_count]

/-- Claim C2 counterexample: a dry run over one qualifying message performs
zero flush calls, not exactly one — the unconditional-flush sentence fails
for dry-run mode. -/
theorem claim_C2_counterexample :
    ¬ ((dryPipeline.run [sampleVoiceMessage]).2.2).count Event.flush = 1 := by
  decide

/-- Claim C2 witness: zero flush calls on the concrete dry run, exactly one
on the concrete (failing) full run. -/
theorem claim_C2_witness :
    ((dryPipeline.run [sampleVoiceMessage]).2.2).count Event.flush = 0 ∧
    ((fullFailPipeline.run [sampleVoiceMessage]).2.2).count Event.flush = 1 :=
  ⟨(claim_C2_amended dryPipeline [sampleVoiceMessage]).1 rfl,
   (claim_C2_amended fullFailPipeline [sampleVoiceMessage]).2 rfl⟩

/-- Claim C6: a dry run returns the state store unchanged, performs no
download, transcription or write calls (no events at all), and leaves
`has_processed` false for every id not already processed. -/
theorem claim_C6_dry_run_purity (p : Pipeline) (messages : List MessageEnvelope)
    (h : p.options.dry_run = true) :
    (p.run messages).2.1 = p.state ∧ (p.run messages).2.2 = [] ∧
    (∀ id, p.state.has_processed id = false →
      ((p.run messages).2.1).has_processed id = false) := by
  refine ⟨by simp [Pipeline.run, h], by simp [Pipeline.run, h], ?_⟩
  intro id hid
  simpa [Pipeline.run, h] using hid

/-- Claim C6 witness: the concrete dry run over the fixture message mutates
nothing and emits no collaborator calls. -/
theorem claim_C6_witness :
    (dryPipeline.run [sampleVoiceMessage]).2.1 = dryPipeline.state ∧
    (dryPipeline.run [sampleVoiceMessage]).2.2 = [] ∧
    (dryPipeline.run [sampleVoiceMessage]).2.1.has_processed 101 = false := by
  have h := claim_C6_dry_run_purity dryPipeline [sampleVoiceMessage] rfl
  exact ⟨h.1, h.2.1, h.2.2 101 (by decide)⟩

/-- Claim C1 as amended: for a fresh, included voice/audio/video-note
message whose download step raises, whose transcribe step raises, or whose
transcription strips to empty, the full-mode loop catches the failure (or
emptiness), still appends a TranscriptEntry carrying the corresponding
placeholder — `"[Transkription fehlgeschlagen]"` for a failure,
`"[Leere Transkription]"` for an empty transcription — marks the id
processed, and continues with the remaining messages. -/
theorem claim_C1_amended (env : CollabEnv) (config : FilterConfig)
    (self_user_id : Option Int) (m : MessageEnvelope)
    (rest : List MessageEnvelope) (entries : List TranscriptEntry)
    (counts : List (MessageType × Nat)) (st : ProcessingState) (evs : List Event)
    (hproc : st.has_processed m.message_id = false)
    (hincl : should_include_message m config self_user_id = true)
    (htype : m.message_type = .voice ∨ m.message_type = .audio ∨
      m.message_type = .video_note) :
    (∀ e, env.downloader m = .error e →
      runFullAux env config self_user_id (m :: rest) entries counts st evs =
        runFullAux env config self_user_id rest
          (entries ++ [⟨m.message_id, m.date, m.sender_display, m.message_type,
            failedPlaceholder⟩])
          (bumpCount counts m.message_type)
          (st.record_processed m.message_id)
          (evs ++ [.download m.message_id])) ∧
    (∀ path e, env.downloader m = .ok path → env.transcriber path = .error e →
      runFullAux env config self_user_id (m :: rest) entries counts st evs =
        runFullAux env config self_user_id rest
          (entries ++ [⟨m.message_id, m.date, m.sender_display, m.message_type,
            failedPlaceholder⟩])
          (bumpCount counts m.message_type)
          (st.record_processed m.message_id)
          (evs ++ [.download m.message_id, .transcribe path])) ∧
    (∀ path raw, env.downloader m = .ok path → env.transcriber path = .ok raw →
      raw.trim = "" →
      runFullAux env config self_user_id (m :: rest) entries counts st evs =
        runFullAux env config self_user_id rest
          (entries ++ [⟨m.message_id, m.date, m.sender_display, m.message_type,
            emptyPlaceholder⟩])
          (bumpCount counts m.message_type)
          (st.record_processed m.message_id)
          (evs ++ [.download m.message_id, .transcribe path])) := by
  refine ⟨?_, ?_, ?_⟩
  · intro e hd
    simp only [runFullAux, hproc, Bool.false_eq_true, if_false, hincl,
      Bool.not_true, processMessage]
    rcases htype with h | h | h <;> simp [h, hd]
  · intro path e hd ht
    simp only [runFullAux, hproc, Bool.false_eq_true, if_false, hincl,
      Bool.not_true, processMessage]
    rcases htype with h | h | h <;> simp [h, hd, ht]
  · intro path raw hd ht hraw
    simp only [runFullAux, hproc, Bool.false_eq_true, if_false, hincl,
      Bool.not_true, processMessage]
    rcases htype with h | h | h <;> simp [h, hd, ht, hraw]

/-- Claim C1 witness: the failing fixture voice message yields exactly one
step that appends a failure-placeholder entry, records id 101 and proceeds
with the (empty) remainder. -/
theorem claim_C1_witness :
    runFullAux failEnv sampleConfig none [sampleVoiceMessage] [] []
        (initState 2000) [] =
      runFullAux failEnv sampleConfig none []
        [⟨sampleVoiceMessage.message_id, sampleVoiceMessage.date,
          sampleVoiceMessage.sender_display, sampleVoiceMessage.message_type,
          failedPlaceholder⟩]
        (bumpCount [] sampleVoiceMessage.message_type)
        ((initState 2000).record_processed sampleVoiceMessage.message_id)
        [.download sampleVoiceMessage.message_id] :=
  (claim_C1_amended failEnv sampleConfig none sampleVoiceMessage [] [] []
    (initState 2000) [] (by decide) (by decide) (Or.inl rfl)).1 "boom" rfl

/-- Claim C1 counterexample: the placeholders the pipeline substitutes are
the German strings, not the literals `"[transcription failed]"` and
`"[empty transcription]"` the claim states; the failing fixture message's
entry carries `"[Transkription fehlgeschlagen]"`. -/
theorem claim_C1_counterexample :
    (runFullAux failEnv sampleConfig none [sampleVoiceMessage] [] []
        (initState 2000) []).1 =
      [⟨101, 540, "Alice", .voice, "[Transkription fehlgeschlagen]"⟩] ∧
    failedPlaceholder ≠ "[transcription failed]" ∧
    emptyPlaceholder ≠ "[empty transcription]" := by
  refine ⟨by decide, by decide, by decide⟩

/-! ## Theorems: the exporter (C7) -/

/-- Inserting into a sorted run keeps, for every fixed timestamp, the
filtered sub-sequence unchanged except for the inserted element, which lands
in front of its equals. -/
theorem filter_orderedInsert_timestamp (a : TranscriptEntry) (t : Int) :
    ∀ l : List TranscriptEntry,
    (l.orderedInsert (fun x y => x.timestamp ≤ y.timestamp) a).filter
        (fun e => e.timestamp = t) =
      if a.timestamp = t then
        a :: l.filter (fun e => e.timestamp = t)
      else l.filter (fun e => e.timestamp = t) := by
  intro l
  induction l with
  | nil =>
    by_cases ha : a.timestamp = t <;> simp [List.orderedInsert, ha]
  | cons b l ih =>
    simp only [List.orderedInsert]
    by_cases hab : a.timestamp ≤ b.timestamp
    · rw [if_pos hab]
      by_cases ha : a.timestamp = t
      · rw [if_pos ha]
        simp [List.filter_cons, ha]
      · rw [if_neg ha]
        simp [List.filter_cons, ha]
    · rw [if_neg hab]
      by_cases ha : a.timestamp = t
      · have hbt : ¬ b.timestamp = t := fun hbt => hab (by omega)
        rw [if_pos ha]
        simp only [List.filter_cons, hbt, decide_eq_true_eq, if_neg hbt, ih,
          if_pos ha]
        simp [hbt]
      · rw [if_neg ha]
        by_cases hbt : b.timestamp = t <;>
          simp [List.filter_cons, hbt, ih, ha]

/-- Stability of the entry sort: for every timestamp, the entries carrying it
appear in the sorted output in their original relative order. -/
theorem sortEntries_stable (entries : List TranscriptEntry) (t : Int) :
    (sortEntries entries).filter (fun e => e.timestamp = t) =
      entries.filter (fun e => e.timestamp = t) := by
  unfold sortEntries
  induction entries with
  | nil => simp
  | cons a l ih =>
    rw [List.insertionSort, filter_orderedInsert_timestamp]
    by_cases ha : a.timestamp = t <;> simp [ha, ih]

/-- `grouped[k]` on a cons cell: the head's list when the key matches, else
the lookup in the tail. -/
theorem lookupGroup_cons (k kk : Int) (xs : List TranscriptEntry)
    (g : List (Int × List TranscriptEntry)) :
    lookupGroup k ((kk, xs) :: g) = if kk = k then xs else lookupGroup k g := by
  by_cases h : kk = k <;> simp [lookupGroup, List.find?, h]

/-- The grouping step on a cons cell, as an if-equation. -/
theorem addToGroup_cons (e : TranscriptEntry) (kk : Int)
    (xs : List TranscriptEntry) (g : List (Int × List TranscriptEntry)) :
    addToGroup ((kk, xs) :: g) e =
      if kk = dateKey e then (kk, xs ++ [e]) :: g
      else (kk, xs) :: addToGroup g e := rfl

/-- One grouping step appends the entry to exactly its date's group. -/
theorem lookupGroup_addToGroup (e : TranscriptEntry) (k : Int) :
    ∀ groups, lookupGroup k (addToGroup groups e) =
      lookupGroup k groups ++ if dateKey e = k then [e] else [] := by
  intro groups
  induction groups with
  | nil =>
    by_cases h : dateKey e = k <;>
      simp [addToGroup, lookupGroup, List.find?, h]
  | cons p rest ih =>
    obtain ⟨kk, xs⟩ := p
    rw [addToGroup_cons]
    by_cases h1 : kk = dateKey e
    · rw [if_pos h1, lookupGroup_cons, lookupGroup_cons]
      by_cases h2 : kk = k
      · rw [if_pos h2, if_pos h2, if_pos (h1.symm.trans h2)]
      · rw [if_neg h2, if_neg h2,
          if_neg (fun hh : dateKey e = k => h2 (h1.trans hh))]
        simp
    · rw [if_neg h1, lookupGroup_cons, lookupGroup_cons]
      by_cases h2 : kk = k
      · rw [if_pos h2, if_pos h2,
          if_neg (fun hh : dateKey e = k => h1 (h2.trans hh.symm))]
        simp
      · rw [if_neg h2, if_neg h2, ih]

/-- One grouping step extends the key list with the entry's date exactly when
it is new, at the end. -/
theorem keys_addToGroup (e : TranscriptEntry) :
    ∀ groups, (addToGroup groups e).map Prod.fst =
      if dateKey e ∈ groups.map Prod.fst then groups.map Prod.fst
      else groups.map Prod.fst ++ [dateKey e] := by
  intro groups
  induction groups with
  | nil => simp [addToGroup]
  | cons p rest ih =>
    obtain ⟨kk, xs⟩ := p
    rw [addToGroup_cons]
    by_cases h1 : kk = dateKey e
    · rw [if_pos h1]
      have hmem : dateKey e ∈ ((kk, xs) :: rest).map Prod.fst := by
        simp [h1.symm]
      rw [if_pos hmem]
      simp
    · rw [if_neg h1]
      have hne : ¬ dateKey e = kk := fun h => h1 h.symm
      simp only [List.map_cons]
      rw [ih]
      by_cases h2 : dateKey e ∈ rest.map Prod.fst
      · rw [if_pos h2, if_pos (by simp [h2])]
      · rw [if_neg h2, if_neg (by simp [hne, h2])]
        simp

/-- The grouping fold collects, for every date key, exactly the entries of
that local date in traversal order. -/
theorem lookupGroup_fold (k : Int) :
    ∀ (l : List TranscriptEntry) (acc : List (Int × List TranscriptEntry)),
    lookupGroup k (l.foldl addToGroup acc) =
      lookupGroup k acc ++ l.filter (fun e => dateKey e = k) := by
  intro l
  induction l with
  | nil => intro acc; simp
  | cons e l ih =>
    intro acc
    rw [List.foldl_cons, ih (addToGroup acc e), lookupGroup_addToGroup]
    by_cases he : dateKey e = k <;> simp [he]

/-- Membership in the folded key list: the date keys seen so far. -/
theorem keys_fold_mem (k : Int) :
    ∀ (l : List TranscriptEntry) (acc : List (Int × List TranscriptEntry)),
    (k ∈ (l.foldl addToGroup acc).map Prod.fst ↔
      k ∈ acc.map Prod.fst ∨ k ∈ l.map dateKey) := by
  intro l
  induction l with
  | nil => intro acc; simp
  | cons e l ih =>
    intro acc
    rw [List.foldl_cons, ih (addToGroup acc e), keys_addToGroup]
    by_cases he : dateKey e ∈ acc.map Prod.fst
    · simp only [he, if_true, List.map_cons, List.mem_cons]
      constructor
      · rintro (h | h)
        · exact Or.inl h
        · exact Or.inr (Or.inr h)
      · rintro (h | h | h)
        · exact Or.inl h
        · exact Or.inl (h ▸ he)
        · exact Or.inr h
    · simp only [he, if_false, List.map_cons, List.mem_cons, List.mem_append,
        List.mem_singleton]
      tauto

/-- The folded key list never holds a date twice. -/
theorem keys_fold_nodup :
    ∀ (l : List TranscriptEntry) (acc : List (Int × List TranscriptEntry)),
    (acc.map Prod.fst).Nodup → ((l.foldl addToGroup acc).map Prod.fst).Nodup := by
  intro l
  induction l with
  | nil => intro acc h; simpa using h
  | cons e l ih =>
    intro acc h
    rw [List.foldl_cons]
    refine ih (addToGroup acc e) ?_
    rw [keys_addToGroup]
    by_cases he : dateKey e ∈ acc.map Prod.fst
    · simpa [he] using h
    · simp [he, List.nodup_append, h]

/-- The ascending key list of the grouping dict equals the ascending list of
distinct local dates. -/
theorem sortedKeys_eq (l : List TranscriptEntry) :
    ((l.foldl addToGroup []).map Prod.fst).insertionSort (· ≤ ·) =
      ((l.map dateKey).dedup).insertionSort (· ≤ ·) := by
  have h1 : ((l.foldl addToGroup []).map Prod.fst).Nodup :=
    keys_fold_nodup l [] (by simp)
  have h2 : ((l.map dateKey).dedup).Nodup := List.nodup_dedup _
  have hmem : ∀ k, k ∈ (l.foldl addToGroup []).map Prod.fst ↔
      k ∈ (l.map dateKey).dedup := by
    intro k
    rw [List.mem_dedup]
    simpa using keys_fold_mem k l []
  have hperm : List.Perm ((l.foldl addToGroup []).map Prod.fst)
      ((l.map dateKey).dedup) :=
    (List.perm_ext_iff_of_nodup h1 h2).mpr hmem
  exact List.eq_of_perm_of_sorted
    (((List.perm_insertionSort _ _).trans hperm).trans
      (List.perm_insertionSort _ _).symm)
    (List.sorted_insertionSort _ _) (List.sorted_insertionSort _ _)

/-- Claim C7: the rendering equals the specification-side rendering — stable
sort by timestamp, localization, grouping by local calendar date, title
line, date headings ascending, one formatted line per entry in chronological
order with the type suffix on non-text types and the id suffix exactly when
enabled — and the sort is stable: entries sharing a timestamp keep their
original relative order. -/
theorem claim_C7_render_matches_spec (cfg : MarkdownExporter)
    (entries : List TranscriptEntry) :
    cfg.render entries = renderSpec cfg entries ∧
    ∀ t, (sortEntries entries).filter (fun e => e.timestamp = t) =
      entries.filter (fun e => e.timestamp = t) := by
  refine ⟨?_, fun t => sortEntries_stable entries t⟩
  have hfold : (sortEntries entries).foldl
      (fun acc e => addToGroup acc (localizeEntry cfg.tz_offset_minutes e)) [] =
      ((sortEntries entries).map (localizeEntry cfg.tz_offset_minutes)).foldl
        addToGroup [] :=
    (List.foldl_map (localizeEntry cfg.tz_offset_minutes) addToGroup
      (sortEntries entries) []).symm
  have hgroups : ∀ k,
      lookupGroup k
        (((sortEntries entries).map (localizeEntry cfg.tz_offset_minutes)).foldl
          addToGroup []) =
      ((sortEntries entries).map (localizeEntry cfg.tz_offset_minutes)).filter
        (fun e => dateKey e = k) := by
    intro k
    rw [lookupGroup_fold]
    simp [lookupGroup, List.find?]
  simp only [MarkdownExporter.render, renderSpec, hfold,
    sortedKeys_eq ((sortEntries entries).map (localizeEntry cfg.tz_offset_minutes)),
    hgroups]

end TgTranscriber

